import Mathlib

/-!
Verification of the hybrid face-shape classification and recommendation-ranking
engine of the ai-powered-hairstyle-suggester repository.

The backend service code (face_analysis.py, recommendation_engine.py,
ml_face_analyzer.py and the hybrid selection logic) is not part of the source
tree available here; only its documentation (Documents/ACADEMIC_REPORT.md,
which records the profile table, the weighted-distance formula and the
confidence formula), its callers (Frontend/src/components/Results.jsx) and its
test plan are.  The corresponding definitions below are therefore modelled
from the specification, faithful to its words, and marked as such.  The
photo-upload component, whose code is present in Results.jsx, is embedded
directly from that source.
-/

namespace HairstyleSuggester

/-- The fixed set of face-shape labels (spec glossary; report table 3 lists the
six profile rows Oval, Round, Square, Heart, Diamond, Oblong). -/
inductive Shape
  | oval
  | round
  | square
  | heart
  | diamond
  | oblong
deriving DecidableEq

/-- Derived scalar measurements of a face (spec data model): raw distances,
the jaw angle in degrees, and the three derived ratios. -/
structure FaceMeasurements where
  faceLength : ℝ
  faceWidth : ℝ
  foreheadWidth : ℝ
  jawWidth : ℝ
  jawAngle : ℝ
  ratio_lw : ℝ
  ratio_fj : ℝ
  ratio_cj : ℝ

/-- A reference entry of the fixed per-shape profile table (spec data model). -/
structure ShapeProfile where
  shape : Shape
  ideal_ratio_lw : ℝ
  ideal_ratio_fj : ℝ
  ideal_ratio_cj : ℝ
  ideal_jaw_angle : ℝ

/-- Oval row of the ideal-ratio table (report, table 3). -/
noncomputable def ovalProfile : ShapeProfile := ⟨Shape.oval, 1.35, 1.25, 1.25, 140⟩

/-- Round row of the ideal-ratio table (report, table 3). -/
noncomputable def roundProfile : ShapeProfile := ⟨Shape.round, 1.05, 1.10, 1.15, 150⟩

/-- Square row of the ideal-ratio table (report, table 3). -/
noncomputable def squareProfile : ShapeProfile := ⟨Shape.square, 1.05, 1.05, 1.10, 120⟩

/-- Heart row of the ideal-ratio table (report, table 3). -/
noncomputable def heartProfile : ShapeProfile := ⟨Shape.heart, 1.25, 1.50, 1.45, 130⟩

/-- Diamond row of the ideal-ratio table (report, table 3). -/
noncomputable def diamondProfile : ShapeProfile := ⟨Shape.diamond, 1.30, 0.85, 1.40, 130⟩

/-- Oblong row of the ideal-ratio table (report, table 3). -/
noncomputable def oblongProfile : ShapeProfile := ⟨Shape.oblong, 1.55, 1.05, 1.10, 140⟩

/-- The profiles after the first one, in declaration order. -/
noncomputable def laterProfiles : List ShapeProfile :=
  [roundProfile, squareProfile, heartProfile, diamondProfile, oblongProfile]

/-- The fixed profile table, in declaration order (report, table 3). -/
noncomputable def profileTable : List ShapeProfile := ovalProfile :: laterProfiles

/-- Modelled from the spec: the weighted L1 distance of the Geometric
Classifier in the missing backend service face_analysis.py, with the design
default weights 2.5, 1.5, 1.0, 0.05 (spec section 4.2; report section 2.3.2). -/
noncomputable def weightedDistance (m : FaceMeasurements) (p : ShapeProfile) : ℝ :=
  2.5 * |m.ratio_lw - p.ideal_ratio_lw| + 1.5 * |m.ratio_fj - p.ideal_ratio_fj|
    + 1.0 * |m.ratio_cj - p.ideal_ratio_cj| + 0.05 * |m.jawAngle - p.ideal_jaw_angle|

/-- Left fold selecting the element with minimal key, updating only on a
strict decrease, so the first element attaining the minimum wins. -/
noncomputable def selectMinBy {α : Type} (f : α → ℝ) : α → List α → α
  | best, [] => best
  | best, p :: ps => if f p < f best then selectMinBy f p ps else selectMinBy f best ps

/-- Which classifier produced a result (spec data model). -/
inductive ClassMethod
  | geometric
  | model
deriving DecidableEq

/-- A single classifier result (spec data model). -/
structure ClassificationResult where
  method : ClassMethod
  shape : Shape
  confidence : ℝ
  raw_measurements : Option FaceMeasurements := none

/-- Modelled from the spec: the confidence formula of the missing backend
classifier, written as in report section 2.3.3:
max(0.65, min(1 - D/3.0, 0.95)). -/
noncomputable def confidenceScore (d : ℝ) : ℝ := max 0.65 (min (1 - d / 3) 0.95)

/-- The clamp function exactly as the spec words it, for comparison with
`confidenceScore`: clamp(x, lo, hi). -/
noncomputable def clampSpec (x lo hi : ℝ) : ℝ := max lo (min x hi)

/-- Modelled from the spec: the profile chosen by the missing backend
Geometric Classifier, the first table row of minimal weighted distance. -/
noncomputable def bestProfile (m : FaceMeasurements) : ShapeProfile :=
  selectMinBy (weightedDistance m) ovalProfile laterProfiles

/-- The minimal weighted distance reached over the profile table. -/
noncomputable def minDistance (m : FaceMeasurements) : ℝ :=
  weightedDistance m (bestProfile m)

/-- Modelled from the spec: the missing backend Geometric Classifier, emitting
the best profile's shape and the clamped confidence (spec section 4.2). -/
noncomputable def classifyGeometric (m : FaceMeasurements) : ClassificationResult :=
  { method := ClassMethod.geometric
    shape := (bestProfile m).shape
    confidence := confidenceScore (minDistance m) }

/-- A concrete measurement whose ratios equal the Oval ideal row. -/
noncomputable def mOval : FaceMeasurements := ⟨0, 0, 0, 0, 140, 1.35, 1.25, 1.25⟩

/-- A concrete all-zero measurement. -/
noncomputable def mZero : FaceMeasurements := ⟨0, 0, 0, 0, 0, 0, 0, 0⟩

/-- A concrete geometric result with the spec example confidence 0.80. -/
noncomputable def geoExample : ClassificationResult :=
  ⟨ClassMethod.geometric, Shape.oval, 0.8, none⟩

/-- A concrete model result with the spec example confidence 0.90. -/
noncomputable def modelExample : ClassificationResult :=
  ⟨ClassMethod.model, Shape.round, 0.9, none⟩

/-- The error taxonomy of the pipeline (spec section 7). -/
inductive AnalysisError
  | missingLandmark (id : ℕ)
  | degenerateGeometry
  | noClassificationAvailable
deriving DecidableEq

/-- The selector's output (spec data model): the chosen result plus every
produced result in completion order. -/
structure SelectionOutcome where
  chosen : ClassificationResult
  all_results : List ClassificationResult

/-- Modelled from the spec: the missing backend hybrid selection logic
(spec section 4.4).  Given the optional geometric and model results, the one
with the higher confidence wins; an exact tie prefers the geometric result; a
single available result is chosen unconditionally; none available fails with
NoClassificationAvailable. -/
noncomputable def hybridSelect (geo mo : Option ClassificationResult) :
    Except AnalysisError SelectionOutcome :=
  match geo, mo with
  | none, none => Except.error AnalysisError.noClassificationAvailable
  | some g, none => Except.ok ⟨g, [g]⟩
  | none, some m => Except.ok ⟨m, [m]⟩
  | some g, some m =>
      if g.confidence < m.confidence then Except.ok ⟨m, [g, m]⟩ else Except.ok ⟨g, [g, m]⟩

/-- The external classifier's raw probability vector, labels as raw strings
(spec section 6). -/
structure RawModelOutput where
  probabilities : List (String × ℝ)

/-- The five class labels the external image classifier is known to use
(spec section 6). -/
def knownShapeLabels : List String := ["Oval", "Round", "Square", "Heart", "Diamond"]

/-- Parse an external class label into a Shape; unknown labels give none. -/
def parseShapeLabel (s : String) : Option Shape :=
  if s = "Oval" then some Shape.oval
  else if s = "Round" then some Shape.round
  else if s = "Square" then some Shape.square
  else if s = "Heart" then some Shape.heart
  else if s = "Diamond" then some Shape.diamond
  else none

/-- Sum of the probability entries of a raw model output. -/
noncomputable def sumProbabilities (r : RawModelOutput) : ℝ :=
  (r.probabilities.map Prod.snd).sum

/-- Modelled from the spec: the tolerance within which the probability vector
must sum to 1 ("does not sum near 1", spec section 6). -/
noncomputable def probTolerance : ℝ := 0.01

/-- Modelled from the spec: the missing Model Classifier Adapter
(spec section 4.3).  Absence of the external call, an empty or malformed
probability vector all yield absence; otherwise the arg-max class with its
probability used directly as confidence. -/
noncomputable def adaptModelOutput : Option RawModelOutput → Option ClassificationResult
  | none => none
  | some r =>
    match r.probabilities with
    | [] => none
    | q :: qs =>
      if |sumProbabilities r - 1| ≤ probTolerance ∧
          ∀ p ∈ r.probabilities, (parseShapeLabel p.1).isSome then
        match parseShapeLabel (selectMinBy (fun p => -p.2) q qs).1 with
        | none => none
        | some sh => some ⟨ClassMethod.model, sh, (selectMinBy (fun p => -p.2) q qs).2, none⟩
      else none

/-- A concrete malformed raw output carrying a class label outside the five
known shapes. -/
noncomputable def badRawOutput : RawModelOutput := ⟨[("Banana", 1)]⟩

/-- Hairstyle difficulty levels (spec data model). -/
inductive Difficulty
  | easy
  | medium
  | hard
deriving DecidableEq

/-- A static hairstyle catalog entry (spec data model). -/
structure HairstyleEntry where
  id : ℕ
  name : String
  description : String
  reason_template : String
  suitable_shapes : List Shape
  popularity : ℕ
  difficulty : Difficulty
  tags : List String
deriving DecidableEq

/-- The ranking order of the Recommendation Ranker: higher popularity first,
ties broken by lower id (spec section 4.5). -/
def rankLE (a b : HairstyleEntry) : Prop :=
  b.popularity < a.popularity ∨ (a.popularity = b.popularity ∧ a.id ≤ b.id)

instance rankLE.decRel : DecidableRel rankLE := fun a b =>
  inferInstanceAs (Decidable (b.popularity < a.popularity ∨
    (a.popularity = b.popularity ∧ a.id ≤ b.id)))

instance rankLE.total : IsTotal HairstyleEntry rankLE where
  total a b := by
    unfold rankLE
    rcases Nat.lt_trichotomy a.popularity b.popularity with h | h | h
    · exact Or.inr (Or.inl h)
    · rcases Nat.le_total a.id b.id with hi | hi
      · exact Or.inl (Or.inr ⟨h, hi⟩)
      · exact Or.inr (Or.inr ⟨h.symm, hi⟩)
    · exact Or.inl (Or.inl h)

instance rankLE.trans : IsTrans HairstyleEntry rankLE where
  trans a b c hab hbc := by
    unfold rankLE at hab hbc ⊢
    rcases hab with h1 | ⟨h1, h1i⟩ <;> rcases hbc with h2 | ⟨h2, h2i⟩
    · exact Or.inl (h2.trans h1)
    · exact Or.inl (h2 ▸ h1)
    · exact Or.inl (h1 ▸ h2)
    · exact Or.inr ⟨h1.trans h2, h1i.trans h2i⟩

/-- Whether a catalog entry is suitable for the given shape. -/
def suitsShape (shape : Shape) (e : HairstyleEntry) : Bool :=
  decide (shape ∈ e.suitable_shapes)

/-- Modelled from the spec: the missing backend Recommendation Ranker
(recommendation_engine.py; spec section 4.5): filter the catalog to entries
suitable for the chosen shape, sort by popularity descending with id-ascending
tie-break, truncate to the limit. -/
def recommend (shape : Shape) (catalog : List HairstyleEntry) (limit : ℕ) :
    List HairstyleEntry :=
  ((catalog.filter (suitsShape shape)).insertionSort rankLE).take limit

/-- First concrete example entry: id 1, popularity 10, suits Oval. -/
def exampleEntryA : HairstyleEntry :=
  ⟨1, "A", "", "", [Shape.oval], 10, Difficulty.easy, []⟩

/-- Second concrete example entry: id 2, popularity 30, suits Oval. -/
def exampleEntryB : HairstyleEntry :=
  ⟨2, "B", "", "", [Shape.oval], 30, Difficulty.easy, []⟩

/-- Third concrete example entry: id 3, popularity 20, suits Oval. -/
def exampleEntryC : HairstyleEntry :=
  ⟨3, "C", "", "", [Shape.oval], 20, Difficulty.easy, []⟩

/-- The three-entry example catalog of the spec's testable property for the
ranker (popularities 10, 30, 20, all suitable for Oval). -/
def exampleCatalog : List HairstyleEntry := [exampleEntryA, exampleEntryB, exampleEntryC]

/-- A 2-D point produced by the landmark detector. -/
abbrev Point := ℝ × ℝ

/-- A detected facial landmark: a stable numeric ID with its position. -/
structure Landmark where
  id : ℕ
  pos : Point

/-- The detector's output: a sequence of identified points (spec data model). -/
abbrev LandmarkSet := List Landmark

/-- Look up the position of the landmark with the given ID, if present. -/
def getLandmark (ls : LandmarkSet) (i : ℕ) : Option Point :=
  (ls.find? (fun l => l.id == i)).map Landmark.pos

/-- Euclidean distance between two points. -/
noncomputable def pointDist (p q : Point) : ℝ :=
  Real.sqrt ((p.1 - q.1) ^ 2 + (p.2 - q.2) ^ 2)

/-- Vector from `q` to `p`. -/
noncomputable def vsub (p q : Point) : Point := (p.1 - q.1, p.2 - q.2)

/-- Dot product of two 2-D vectors. -/
noncomputable def dotProd (u v : Point) : ℝ := u.1 * v.1 + u.2 * v.2

/-- Euclidean norm of a 2-D vector. -/
noncomputable def vecNorm (u : Point) : ℝ := Real.sqrt (u.1 ^ 2 + u.2 ^ 2)

/-- Clamp a value into the closed interval from -1 to 1, the domain of arccos
(spec testable property on the jaw-angle boundary). -/
noncomputable def clampUnit (x : ℝ) : ℝ := max (-1) (min x 1)

/-- Modelled from the spec: the cosine fed to arccos when the missing backend
extractor computes the jaw angle at the chin vertex between the two jaw-corner
vectors, clamped to the valid arccos domain (spec sections 4.1 and 8; report
section 2.2.2). -/
noncomputable def jawCosArg (chin lJaw rJaw : Point) : ℝ :=
  clampUnit (dotProd (vsub lJaw chin) (vsub rJaw chin) /
    (vecNorm (vsub lJaw chin) * vecNorm (vsub rJaw chin)))

/-- Modelled from the spec: the missing backend Feature Extractor
(face_analysis.py; spec section 4.1), using the role-to-ID map of report
table 1: forehead top 10, chin 152, cheekbones 234 and 454, forehead edges
103 and 332, jaw corners 132 and 361.  An absent required ID fails with
MissingLandmarkError; a denominator distance at most epsilon fails with
DegenerateGeometryError; otherwise the measurements and ratios are produced. -/
noncomputable def extractFaceMeasurements (ε : ℝ) (ls : LandmarkSet) :
    Except AnalysisError FaceMeasurements :=
  match getLandmark ls 10 with
  | none => Except.error (AnalysisError.missingLandmark 10)
  | some foreheadTop =>
  match getLandmark ls 152 with
  | none => Except.error (AnalysisError.missingLandmark 152)
  | some chin =>
  match getLandmark ls 234 with
  | none => Except.error (AnalysisError.missingLandmark 234)
  | some leftCheek =>
  match getLandmark ls 454 with
  | none => Except.error (AnalysisError.missingLandmark 454)
  | some rightCheek =>
  match getLandmark ls 103 with
  | none => Except.error (AnalysisError.missingLandmark 103)
  | some leftForeheadEdge =>
  match getLandmark ls 332 with
  | none => Except.error (AnalysisError.missingLandmark 332)
  | some rightForeheadEdge =>
  match getLandmark ls 132 with
  | none => Except.error (AnalysisError.missingLandmark 132)
  | some leftJaw =>
  match getLandmark ls 361 with
  | none => Except.error (AnalysisError.missingLandmark 361)
  | some rightJaw =>
  if pointDist rightCheek leftCheek ≤ ε ∨ pointDist rightJaw leftJaw ≤ ε ∨
      vecNorm (vsub leftJaw chin) ≤ ε ∨ vecNorm (vsub rightJaw chin) ≤ ε then
    Except.error AnalysisError.degenerateGeometry
  else
    Except.ok
      { faceLength := pointDist foreheadTop chin
        faceWidth := pointDist rightCheek leftCheek
        foreheadWidth := pointDist rightForeheadEdge leftForeheadEdge
        jawWidth := pointDist rightJaw leftJaw
        jawAngle := Real.arccos (jawCosArg chin leftJaw rightJaw)
        ratio_lw := pointDist foreheadTop chin / pointDist rightCheek leftCheek
        ratio_fj := pointDist rightForeheadEdge leftForeheadEdge / pointDist rightJaw leftJaw
        ratio_cj := pointDist rightCheek leftCheek / pointDist rightJaw leftJaw }

/-- Modelled from the spec: the full missing backend pipeline (spec section 2
control flow): extraction feeds the geometric classifier, the adapter runs on
the external output, both feed the hybrid selector, whose winning shape feeds
the ranker. -/
noncomputable def runPipeline (ε : ℝ) (ls : LandmarkSet) (raw : Option RawModelOutput)
    (catalog : List HairstyleEntry) (limit : ℕ) :
    Except AnalysisError (SelectionOutcome × List HairstyleEntry) :=
  match extractFaceMeasurements ε ls with
  | Except.error e => Except.error e
  | Except.ok m =>
    match hybridSelect (some (classifyGeometric m)) (adaptModelOutput raw) with
    | Except.error e => Except.error e
    | Except.ok outcome => Except.ok (outcome, recommend outcome.chosen.shape catalog limit)

/-- A file offered to the photo-upload component: its MIME type and byte size
(Results.jsx, PhotoUpload). -/
structure UploadFile where
  type : String
  size : ℕ
deriving DecidableEq

/-- The MIME types processFile accepts (Results.jsx, validTypes). -/
def validUploadTypes : List String := ["image/jpeg", "image/png", "image/webp"]

/-- The maximal accepted file size in bytes (Results.jsx, maxSize). -/
def maxUploadSize : ℕ := 10 * 1024 * 1024

/-- A file the component may legitimately select. -/
def validUploadFile (f : UploadFile) : Prop :=
  f.type ∈ validUploadTypes ∧ f.size ≤ maxUploadSize

instance validUploadFile.dec (f : UploadFile) : Decidable (validUploadFile f) :=
  inferInstanceAs (Decidable (f.type ∈ validUploadTypes ∧ f.size ≤ maxUploadSize))

/-- The error message for a rejected MIME type (Results.jsx). -/
def typeErrorMessage : String := "Please upload a JPEG, PNG, or WebP image"

/-- The error message for an oversized file (Results.jsx). -/
def sizeErrorMessage : String := "Image must be smaller than 10MB"

/-- The state of the PhotoUpload component (Results.jsx, PhotoUpload). -/
structure UploadState where
  selectedFile : Option UploadFile
  preview : Option UploadFile
  error : Option String
  isLoading : Bool
deriving DecidableEq

/-- The component's initial state: nothing selected, no error. -/
def initialUploadState : UploadState := ⟨none, none, none, false⟩

/-- processFile from Results.jsx: clear the error, reject a bad MIME type or
an oversized file with an error message and without selecting, otherwise
select the file and set the preview. -/
def processFile (s : UploadState) (f : UploadFile) : UploadState :=
  if f.type ∉ validUploadTypes then
    { s with error := some typeErrorMessage }
  else if maxUploadSize < f.size then
    { s with error := some sizeErrorMessage }
  else
    { s with selectedFile := some f, preview := some f, error := none }

/-- The user-visible events of the PhotoUpload component. -/
inductive UploadEvent
  | selectFile (f : UploadFile)
  | reset
  | upload
  | analysisFailed (msg : String)
  | analysisSucceeded

/-- One step of the PhotoUpload component (Results.jsx handlers); the second
component is the file sent with an analyze request during the step, if any. -/
def stepUpload (s : UploadState) : UploadEvent → UploadState × Option UploadFile
  | UploadEvent.selectFile f => (processFile s f, none)
  | UploadEvent.reset => ({ s with selectedFile := none, preview := none, error := none }, none)
  | UploadEvent.upload =>
    match s.selectedFile with
    | none => (s, none)
    | some f => ({ s with isLoading := true, error := none }, some f)
  | UploadEvent.analysisFailed msg => ({ s with isLoading := false, error := some msg }, none)
  | UploadEvent.analysisSucceeded => ({ s with isLoading := false }, none)

/-- The states the PhotoUpload component can reach from its initial state. -/
inductive ReachableUpload : UploadState → Prop
  | init : ReachableUpload initialUploadState
  | step {s : UploadState} (hs : ReachableUpload s) (e : UploadEvent) :
      ReachableUpload (stepUpload s e).1

/-- The selected file, when present, is always valid. -/
def uploadInvariant (s : UploadState) : Prop :=
  ∀ f, s.selectedFile = some f → validUploadFile f

/-- The fold result is an element of the scanned list. -/
theorem selectMinBy_mem {α : Type} (f : α → ℝ) (best : α) (ps : List α) :
    selectMinBy f best ps ∈ best :: ps := by
  induction ps generalizing best with
  | nil => simp [selectMinBy]
  | cons p ps ih =>
    rw [selectMinBy]
    by_cases hlt : f p < f best
    · rw [if_pos hlt]
      exact List.mem_cons_of_mem best (ih p)
    · rw [if_neg hlt]
      rcases List.mem_cons.1 (ih best) with h | h
      · rw [h]
        exact List.mem_cons_self _ _
      · exact List.mem_cons_of_mem best (List.mem_cons_of_mem p h)

/-- The fold result has a minimal key among the scanned elements. -/
theorem selectMinBy_le {α : Type} (f : α → ℝ) (best : α) (ps : List α) :
    ∀ q ∈ best :: ps, f (selectMinBy f best ps) ≤ f q := by
  induction ps generalizing best with
  | nil =>
    intro q hq
    rcases List.mem_cons.1 hq with h | h
    · simp [selectMinBy, h]
    · simp at h
  | cons p ps ih =>
    intro q hq
    rw [selectMinBy]
    by_cases hlt : f p < f best
    · rw [if_pos hlt]
      rcases List.mem_cons.1 hq with h | h
      · rw [h]
        exact le_of_lt (lt_of_le_of_lt (ih p p (List.mem_cons_self p ps)) hlt)
      · exact ih p q h
    · rw [if_neg hlt]
      rcases List.mem_cons.1 hq with h | h
      · rw [h]
        exact ih best best (List.mem_cons_self best ps)
      · rcases List.mem_cons.1 h with h2 | h2
        · rw [h2]
          exact le_trans (ih best best (List.mem_cons_self best ps)) (le_of_not_lt hlt)
        · exact ih best q (List.mem_cons_of_mem best h2)

/-- The fold result is the starting element, or its key strictly decreased. -/
theorem selectMinBy_eq_or_lt {α : Type} (f : α → ℝ) (best : α) (ps : List α) :
    selectMinBy f best ps = best ∨ f (selectMinBy f best ps) < f best := by
  induction ps generalizing best with
  | nil => exact Or.inl rfl
  | cons p ps ih =>
    rw [selectMinBy]
    by_cases hlt : f p < f best
    · rw [if_pos hlt]
      rcases ih p with h | h
      · rw [h]
        exact Or.inr hlt
      · exact Or.inr (h.trans hlt)
    · rw [if_neg hlt]
      exact ih best

/-- The fold result is the first scanned element whose key equals its key:
the tie-break takes the earliest minimum. -/
theorem selectMinBy_find? {α : Type} (f : α → ℝ) (best : α) (ps : List α) :
    (best :: ps).find? (fun q => decide (f q = f (selectMinBy f best ps)))
      = some (selectMinBy f best ps) := by
  induction ps generalizing best with
  | nil =>
    rw [selectMinBy]
    exact List.find?_cons_of_pos _ (by simp)
  | cons p ps ih =>
    rw [selectMinBy]
    by_cases hlt : f p < f best
    · rw [if_pos hlt]
      have hmin : f (selectMinBy f p ps) ≤ f p := selectMinBy_le f p ps p (List.mem_cons_self p ps)
      have hne : f best ≠ f (selectMinBy f p ps) := by
        intro h
        rw [h] at hlt
        exact absurd hlt (not_lt_of_le hmin)
      rw [List.find?_cons_of_neg _ (by simpa using hne)]
      exact ih p
    · rw [if_neg hlt]
      by_cases he : f best = f (selectMinBy f best ps)
      · have hbest : selectMinBy f best ps = best := by
          rcases selectMinBy_eq_or_lt f best ps with h | h
          · exact h
          · rw [← he] at h
            exact absurd h (lt_irrefl _)
        rw [List.find?_cons_of_pos _ (by simpa using he)]
        rw [hbest]
      · have hlt2 : f (selectMinBy f best ps) < f best := by
          rcases selectMinBy_eq_or_lt f best ps with h | h
          · rw [h] at he
            exact absurd rfl he
          · exact h
        have hnep : f p ≠ f (selectMinBy f best ps) := by
          intro h
          rw [← h] at hlt2
          exact absurd hlt2 hlt
        rw [List.find?_cons_of_neg _ (by simpa using he)]
        rw [List.find?_cons_of_neg _ (by simpa using hnep)]
        have h3 := ih best
        rwa [List.find?_cons_of_neg _ (by simpa using he)] at h3

/-- Weighted distances are sums of nonnegative terms. -/
theorem weightedDistance_nonneg (m : FaceMeasurements) (p : ShapeProfile) :
    0 ≤ weightedDistance m p := by
  unfold weightedDistance
  positivity

/-- The minimal distance is nonnegative. -/
theorem minDistance_nonneg (m : FaceMeasurements) : 0 ≤ minDistance m :=
  weightedDistance_nonneg m (bestProfile m)

/-- C1: for every FaceMeasurements input, the Geometric Classifier's confidence
equals clamp(1 - D_min/3.0, 0.65, 0.95), where D_min is the minimum weighted
distance over the profile table; it always lies in the closed interval
[0.65, 0.95], and it is monotonically non-increasing in D_min. -/
theorem geometric_confidence_clamped (m : FaceMeasurements) :
    (classifyGeometric m).confidence = clampSpec (1 - minDistance m / 3) 0.65 0.95 ∧
    (∀ p ∈ profileTable, minDistance m ≤ weightedDistance m p) ∧
    0.65 ≤ (classifyGeometric m).confidence ∧
    (classifyGeometric m).confidence ≤ 0.95 ∧
    ∀ m2 : FaceMeasurements, minDistance m ≤ minDistance m2 →
      (classifyGeometric m2).confidence ≤ (classifyGeometric m).confidence := by
  refine ⟨rfl, ?_, ?_, ?_, ?_⟩
  · intro p hp
    rw [profileTable] at hp
    unfold minDistance bestProfile
    exact selectMinBy_le (weightedDistance m) ovalProfile laterProfiles p hp
  · show 0.65 ≤ confidenceScore (minDistance m)
    exact le_max_left _ _
  · show confidenceScore (minDistance m) ≤ 0.95
    exact max_le (by norm_num) (min_le_right _ _)
  · intro m2 hle
    show confidenceScore (minDistance m2) ≤ confidenceScore (minDistance m)
    unfold confidenceScore
    have h : 1 - minDistance m2 / 3 ≤ 1 - minDistance m / 3 := by linarith
    exact max_le_max (le_refl _) (min_le_min h (le_refl _))

/-- Witness for C1 at concrete measurements: the Oval-ideal measurement has a
distance no larger than the all-zero measurement, so its confidence is no
smaller. -/
theorem geometric_confidence_clamped_witness :
    minDistance mOval ≤ minDistance mZero ∧
    (classifyGeometric mZero).confidence ≤ (classifyGeometric mOval).confidence := by
  have h0 : minDistance mOval ≤ weightedDistance mOval ovalProfile := by
    unfold minDistance bestProfile
    exact selectMinBy_le (weightedDistance mOval) ovalProfile laterProfiles ovalProfile
      (List.mem_cons_self _ _)
  have h2 : weightedDistance mOval ovalProfile = 0 := by
    norm_num [weightedDistance, mOval, ovalProfile]
  have h1 : minDistance mOval ≤ minDistance mZero := by
    rw [h2] at h0
    exact le_trans h0 (minDistance_nonneg mZero)
  exact ⟨h1, (geometric_confidence_clamped mOval).2.2.2.2 mZero h1⟩

/-- C2: the Geometric Classifier computes the weighted L1 distance with
weights 2.5, 1.5, 1.0, 0.05 for each table profile and returns the shape of
the profile with minimum distance; on ties the first profile in declaration
order is returned (the chosen profile is the first table entry whose distance
equals the minimum). -/
theorem geometric_classifier_argmin (m : FaceMeasurements) :
    (∀ p : ShapeProfile, weightedDistance m p =
      2.5 * |m.ratio_lw - p.ideal_ratio_lw| + 1.5 * |m.ratio_fj - p.ideal_ratio_fj|
        + 1.0 * |m.ratio_cj - p.ideal_ratio_cj| + 0.05 * |m.jawAngle - p.ideal_jaw_angle|) ∧
    bestProfile m ∈ profileTable ∧
    (∀ p ∈ profileTable, weightedDistance m (bestProfile m) ≤ weightedDistance m p) ∧
    profileTable.find?
        (fun p => decide (weightedDistance m p = weightedDistance m (bestProfile m)))
      = some (bestProfile m) ∧
    (classifyGeometric m).shape = (bestProfile m).shape := by
  refine ⟨fun p => rfl, ?_, ?_, ?_, rfl⟩
  · rw [profileTable]
    unfold bestProfile
    exact selectMinBy_mem _ _ _
  · intro p hp
    rw [profileTable] at hp
    unfold bestProfile
    exact selectMinBy_le _ _ _ p hp
  · rw [profileTable]
    unfold bestProfile
    exact selectMinBy_find? _ _ _

/-- Witness for C2 at a concrete measurement: the chosen profile's distance is
at most the Oval row's distance. -/
theorem geometric_classifier_argmin_witness :
    ovalProfile ∈ profileTable ∧
    weightedDistance mZero (bestProfile mZero) ≤ weightedDistance mZero ovalProfile := by
  have hmem : ovalProfile ∈ profileTable := by
    rw [profileTable]
    exact List.mem_cons_self _ _
  exact ⟨hmem, (geometric_classifier_argmin mZero).2.2.1 ovalProfile hmem⟩

/-- C3: with both results available the Hybrid Selector chooses the one with
strictly higher confidence, an exact tie goes to the geometric result, and a
single available result is chosen unconditionally. -/
theorem hybrid_selector_prefers_higher_confidence (g m : ClassificationResult) :
    (m.confidence ≤ g.confidence →
      hybridSelect (some g) (some m) = Except.ok ⟨g, [g, m]⟩) ∧
    (g.confidence < m.confidence →
      hybridSelect (some g) (some m) = Except.ok ⟨m, [g, m]⟩) ∧
    hybridSelect (some g) none = Except.ok ⟨g, [g]⟩ ∧
    hybridSelect none (some m) = Except.ok ⟨m, [m]⟩ := by
  refine ⟨?_, ?_, rfl, rfl⟩
  · intro h
    simp only [hybridSelect]
    rw [if_neg (not_lt_of_le h)]
  · intro h
    simp only [hybridSelect]
    rw [if_pos h]

/-- Witness for C3 at the spec's example confidences 0.80 and 0.90: the model
result is chosen. -/
theorem hybrid_selector_prefers_higher_confidence_witness :
    geoExample.confidence < modelExample.confidence ∧
    hybridSelect (some geoExample) (some modelExample)
      = Except.ok ⟨modelExample, [geoExample, modelExample]⟩ := by
  have h : geoExample.confidence < modelExample.confidence := by
    norm_num [geoExample, modelExample]
  exact ⟨h, (hybrid_selector_prefers_higher_confidence geoExample modelExample).2.1 h⟩

/-- C4: with no available results the Hybrid Selector fails with
NoClassificationAvailable; that is the only failure it can produce, and on
success the chosen result is always one of the inputs, never a fabricated
default. -/
theorem hybrid_selector_empty_fails :
    hybridSelect none none = Except.error AnalysisError.noClassificationAvailable ∧
    (∀ geo mo e, hybridSelect geo mo = Except.error e →
      e = AnalysisError.noClassificationAvailable ∧ geo = none ∧ mo = none) ∧
    (∀ geo mo o, hybridSelect geo mo = Except.ok o →
      some o.chosen = geo ∨ some o.chosen = mo) := by
  refine ⟨rfl, ?_, ?_⟩
  · intro geo mo e h
    match geo, mo with
    | none, none =>
      refine ⟨?_, rfl, rfl⟩
      simpa [hybridSelect] using h.symm
    | some g, none => simp [hybridSelect] at h
    | none, some m => simp [hybridSelect] at h
    | some g, some m =>
      by_cases hc : g.confidence < m.confidence
      · rw [show hybridSelect (some g) (some m) = Except.ok ⟨m, [g, m]⟩ by
          simp only [hybridSelect]; rw [if_pos hc]] at h
        exact absurd h (by simp)
      · rw [show hybridSelect (some g) (some m) = Except.ok ⟨g, [g, m]⟩ by
          simp only [hybridSelect]; rw [if_neg hc]] at h
        exact absurd h (by simp)
  · intro geo mo o h
    match geo, mo with
    | none, none => simp [hybridSelect] at h
    | some g, none =>
      left
      simp only [hybridSelect, Except.ok.injEq] at h
      rw [← h]
    | none, some m =>
      right
      simp only [hybridSelect, Except.ok.injEq] at h
      rw [← h]
    | some g, some m =>
      by_cases hc : g.confidence < m.confidence
      · right
        rw [show hybridSelect (some g) (some m) = Except.ok ⟨m, [g, m]⟩ by
          simp only [hybridSelect]; rw [if_pos hc]] at h
        rw [← Except.ok.inj h]
      · left
        rw [show hybridSelect (some g) (some m) = Except.ok ⟨g, [g, m]⟩ by
          simp only [hybridSelect]; rw [if_neg hc]] at h
        rw [← Except.ok.inj h]

/-- Witness for C4: a concrete application on one available result, whose
chosen outcome is that input. -/
theorem hybrid_selector_empty_fails_witness :
    hybridSelect (some geoExample) none = Except.ok ⟨geoExample, [geoExample]⟩ ∧
    (some (⟨geoExample, [geoExample]⟩ : SelectionOutcome).chosen = some geoExample ∨
      some (⟨geoExample, [geoExample]⟩ : SelectionOutcome).chosen = none) :=
  ⟨rfl, hybrid_selector_empty_fails.2.2 (some geoExample) none _ rfl⟩

/-- C5: the Recommendation Ranker returns exactly the catalog entries suitable
for the chosen shape, sorted by popularity descending with id-ascending
tie-break, truncated to the limit; on the spec's three-entry Oval example with
popularities 10, 30, 20 and limit 2, the output is the popularity-30 entry
followed by the popularity-20 entry. -/
theorem ranker_orders_by_popularity (shape : Shape) (catalog : List HairstyleEntry)
    (limit : ℕ) :
    (∀ e ∈ recommend shape catalog limit, e ∈ catalog ∧ shape ∈ e.suitable_shapes) ∧
    List.Sorted rankLE (recommend shape catalog limit) ∧
    (recommend shape catalog limit).length ≤ limit ∧
    (∃ rest, List.Perm (recommend shape catalog limit ++ rest)
      (catalog.filter (suitsShape shape))) ∧
    recommend Shape.oval exampleCatalog 2 = [exampleEntryB, exampleEntryC] := by
  refine ⟨?_, ?_, ?_, ?_, by decide⟩
  · intro e he
    unfold recommend at he
    have h1 : e ∈ (catalog.filter (suitsShape shape)).insertionSort rankLE :=
      List.mem_of_mem_take he
    rw [List.mem_insertionSort] at h1
    have h2 := List.mem_filter.1 h1
    exact ⟨h2.1, by simpa [suitsShape] using h2.2⟩
  · unfold recommend
    exact List.Pairwise.sublist (List.take_sublist _ _) (List.sorted_insertionSort rankLE _)
  · unfold recommend
    rw [List.length_take]
    exact min_le_left _ _
  · refine ⟨((catalog.filter (suitsShape shape)).insertionSort rankLE).drop limit, ?_⟩
    unfold recommend
    rw [List.take_append_drop]
    exact List.perm_insertionSort rankLE _

/-- Witness for C5: the popularity-30 example entry is in the ranked output,
hence in the catalog and suitable for Oval. -/
theorem ranker_orders_by_popularity_witness :
    exampleEntryB ∈ recommend Shape.oval exampleCatalog 2 ∧
    exampleEntryB ∈ exampleCatalog ∧ Shape.oval ∈ exampleEntryB.suitable_shapes := by
  have h : exampleEntryB ∈ recommend Shape.oval exampleCatalog 2 := by decide
  exact ⟨h, (ranker_orders_by_popularity Shape.oval exampleCatalog 2).1 exampleEntryB h⟩

/-- C6: the Recommendation Ranker never fails: its output length is exactly
the minimum of the limit and the number of matches, with fewer matches than
the limit it returns exactly the matches with no padding, and with zero
matches it returns the empty list as a success value. -/
theorem ranker_total_no_padding (shape : Shape) (catalog : List HairstyleEntry)
    (limit : ℕ) :
    (recommend shape catalog limit).length
      = min limit (catalog.filter (suitsShape shape)).length ∧
    ((catalog.filter (suitsShape shape)).length ≤ limit →
      List.Perm (recommend shape catalog limit) (catalog.filter (suitsShape shape))) ∧
    (catalog.filter (suitsShape shape) = [] → recommend shape catalog limit = []) := by
  refine ⟨?_, ?_, ?_⟩
  · unfold recommend
    rw [List.length_take, List.length_insertionSort]
  · intro h
    unfold recommend
    rw [List.take_of_length_le (by rw [List.length_insertionSort]; exact h)]
    exact List.perm_insertionSort rankLE _
  · intro h
    unfold recommend
    rw [h]
    simp [List.insertionSort]

/-- Witness for C6: Oblong matches no example-catalog entry and the ranked
output is the empty list, not an error. -/
theorem ranker_total_no_padding_witness :
    exampleCatalog.filter (suitsShape Shape.oblong) = [] ∧
    recommend Shape.oblong exampleCatalog 5 = [] :=
  ⟨by decide, (ranker_total_no_padding Shape.oblong exampleCatalog 5).2.2 (by decide)⟩

/-- Full case analysis of the extractor: a missing landmark, degenerate
geometry, or a success whose denominator distances exceed epsilon and whose
ratios are the recorded quotients. -/
theorem extract_cases (ε : ℝ) (ls : LandmarkSet) :
    (∃ i, extractFaceMeasurements ε ls = Except.error (AnalysisError.missingLandmark i)) ∨
    extractFaceMeasurements ε ls = Except.error AnalysisError.degenerateGeometry ∨
    (∃ m, extractFaceMeasurements ε ls = Except.ok m ∧
      ε < m.faceWidth ∧ ε < m.jawWidth ∧
      m.ratio_lw = m.faceLength / m.faceWidth ∧
      m.ratio_fj = m.foreheadWidth / m.jawWidth ∧
      m.ratio_cj = m.faceWidth / m.jawWidth) := by
  unfold extractFaceMeasurements
  rcases h10 : getLandmark ls 10 with _ | foreheadTop
  · simp only [h10]
    exact Or.inl ⟨10, rfl⟩
  simp only [h10]
  rcases h152 : getLandmark ls 152 with _ | chin
  · simp only [h152]
    exact Or.inl ⟨152, rfl⟩
  simp only [h152]
  rcases h234 : getLandmark ls 234 with _ | leftCheek
  · simp only [h234]
    exact Or.inl ⟨234, rfl⟩
  simp only [h234]
  rcases h454 : getLandmark ls 454 with _ | rightCheek
  · simp only [h454]
    exact Or.inl ⟨454, rfl⟩
  simp only [h454]
  rcases h103 : getLandmark ls 103 with _ | leftForeheadEdge
  · simp only [h103]
    exact Or.inl ⟨103, rfl⟩
  simp only [h103]
  rcases h332 : getLandmark ls 332 with _ | rightForeheadEdge
  · simp only [h332]
    exact Or.inl ⟨332, rfl⟩
  simp only [h332]
  rcases h132 : getLandmark ls 132 with _ | leftJaw
  · simp only [h132]
    exact Or.inl ⟨132, rfl⟩
  simp only [h132]
  rcases h361 : getLandmark ls 361 with _ | rightJaw
  · simp only [h361]
    exact Or.inl ⟨361, rfl⟩
  simp only [h361]
  by_cases hg : pointDist rightCheek leftCheek ≤ ε ∨ pointDist rightJaw leftJaw ≤ ε ∨
      vecNorm (vsub leftJaw chin) ≤ ε ∨ vecNorm (vsub rightJaw chin) ≤ ε
  · rw [if_pos hg]
    exact Or.inr (Or.inl rfl)
  · rw [if_neg hg]
    push_neg at hg
    exact Or.inr (Or.inr ⟨_, rfl, hg.1, hg.2.1, rfl, rfl, rfl⟩)

/-- C7: the Feature Extractor is total: it returns measurements, or fails with
MissingLandmarkError on an absent required ID, or fails with
DegenerateGeometryError; on success every denominator distance is positive (so
no division by zero occurs), and the clamped cosine fed to arccos always lies
in [-1, 1], so jaw angles of exactly 0 or 180 degrees cannot crash it. -/
theorem feature_extractor_total (ε : ℝ) (ls : LandmarkSet) (hε : 0 < ε) :
    ((∃ i, extractFaceMeasurements ε ls = Except.error (AnalysisError.missingLandmark i)) ∨
      extractFaceMeasurements ε ls = Except.error AnalysisError.degenerateGeometry ∨
      ∃ m, extractFaceMeasurements ε ls = Except.ok m) ∧
    (∀ m, extractFaceMeasurements ε ls = Except.ok m →
      0 < m.faceWidth ∧ 0 < m.jawWidth ∧
      m.ratio_lw = m.faceLength / m.faceWidth ∧
      m.ratio_fj = m.foreheadWidth / m.jawWidth ∧
      m.ratio_cj = m.faceWidth / m.jawWidth) ∧
    (∀ chin lJaw rJaw : Point,
      -1 ≤ jawCosArg chin lJaw rJaw ∧ jawCosArg chin lJaw rJaw ≤ 1) := by
  refine ⟨?_, ?_, ?_⟩
  · rcases extract_cases ε ls with h | h | ⟨m, hm, _⟩
    · exact Or.inl h
    · exact Or.inr (Or.inl h)
    · exact Or.inr (Or.inr ⟨m, hm⟩)
  · intro m hm
    rcases extract_cases ε ls with ⟨i, h⟩ | h | ⟨m2, hm2, hfw, hjw, h1, h2, h3⟩
    · rw [h] at hm
      exact absurd hm (by simp)
    · rw [h] at hm
      exact absurd hm (by simp)
    · rw [hm2] at hm
      have he : m2 = m := Except.ok.inj hm
      subst he
      exact ⟨lt_trans hε hfw, lt_trans hε hjw, h1, h2, h3⟩
  · intro c l r
    unfold jawCosArg clampUnit
    exact ⟨le_max_left _ _, max_le (by norm_num) (min_le_right _ _)⟩

/-- Witness for C7 at a concrete positive epsilon and the empty landmark set,
where extraction reports a missing landmark rather than crashing. -/
theorem feature_extractor_total_witness :
    (0 : ℝ) < 1 ∧
    ((∃ i, extractFaceMeasurements 1 [] = Except.error (AnalysisError.missingLandmark i)) ∨
      extractFaceMeasurements 1 [] = Except.error AnalysisError.degenerateGeometry ∨
      ∃ m, extractFaceMeasurements 1 [] = Except.ok m) :=
  ⟨by norm_num, (feature_extractor_total 1 [] (by norm_num)).1⟩

/-- C8: the Model Classifier Adapter maps an absent external call to absence,
maps any malformed probability vector (sum not near 1, or an unknown class
label) to absence rather than crashing, and on success returns the arg-max
class with that class's probability used unchanged as the confidence. -/
theorem model_adapter_argmax (r : RawModelOutput) :
    adaptModelOutput none = none ∧
    (¬ |sumProbabilities r - 1| ≤ probTolerance → adaptModelOutput (some r) = none) ∧
    ((∃ p ∈ r.probabilities, parseShapeLabel p.1 = none) →
      adaptModelOutput (some r) = none) ∧
    (∀ res, adaptModelOutput (some r) = some res →
      res.method = ClassMethod.model ∧
      (∃ lbl, (lbl, res.confidence) ∈ r.probabilities ∧
        parseShapeLabel lbl = some res.shape) ∧
      ∀ p ∈ r.probabilities, p.2 ≤ res.confidence) := by
  refine ⟨rfl, ?_, ?_, ?_⟩
  · intro h
    rcases hp : r.probabilities with _ | ⟨q, qs⟩
    · simp only [adaptModelOutput, hp]
    · simp only [adaptModelOutput, hp]
      have hnc : ¬(|sumProbabilities r - 1| ≤ probTolerance ∧
          ∀ p ∈ q :: qs, (parseShapeLabel p.1).isSome) := fun hc => h hc.1
      rw [if_neg hnc]
  · rintro ⟨p0, hp0mem, hp0none⟩
    rcases hp : r.probabilities with _ | ⟨q, qs⟩
    · simp only [adaptModelOutput, hp]
    · simp only [adaptModelOutput, hp]
      have hnc : ¬(|sumProbabilities r - 1| ≤ probTolerance ∧
          ∀ p ∈ q :: qs, (parseShapeLabel p.1).isSome) := by
        rintro ⟨-, hall⟩
        have h2 := hall p0 (by rw [← hp]; exact hp0mem)
        rw [hp0none] at h2
        simp at h2
      rw [if_neg hnc]
  · intro res hres
    rcases hp : r.probabilities with _ | ⟨q, qs⟩
    · simp only [adaptModelOutput, hp] at hres
      exact absurd hres (by simp)
    · simp only [adaptModelOutput, hp] at hres
      by_cases hc : |sumProbabilities r - 1| ≤ probTolerance ∧
          ∀ p ∈ q :: qs, (parseShapeLabel p.1).isSome
      · rw [if_pos hc] at hres
        rcases hparse : parseShapeLabel (selectMinBy (fun p => -p.2) q qs).1 with _ | sh
        · rw [hparse] at hres
          exact absurd hres (by simp)
        · rw [hparse] at hres
          have hr := Option.some.inj hres
          rw [← hr]
          refine ⟨rfl, ⟨(selectMinBy (fun p => -p.2) q qs).1, ?_, hparse⟩, ?_⟩
          · exact selectMinBy_mem (fun p : String × ℝ => -p.2) q qs
          · intro p hmem
            have hle := selectMinBy_le (fun x : String × ℝ => -x.2) q qs p hmem
            exact neg_le_neg_iff.1 hle
      · rw [if_neg hc] at hres
        exact absurd hres (by simp)

/-- Witness for C8: the unknown-label raw output is mapped to absence. -/
theorem model_adapter_argmax_witness :
    (∃ p ∈ badRawOutput.probabilities, parseShapeLabel p.1 = none) ∧
    adaptModelOutput (some badRawOutput) = none := by
  have h : ∃ p ∈ badRawOutput.probabilities, parseShapeLabel p.1 = none := by
    refine ⟨("Banana", 1), by simp [badRawOutput], by decide⟩
  exact ⟨h, (model_adapter_argmax badRawOutput).2.2.1 h⟩

/-- C9: the full pipeline is deterministic: the same landmark set, mocked
external output, catalog and limit always produce the same selection outcome
and recommendation list, and the Geometric Classifier maps identical
measurements to identical results. -/
theorem pipeline_deterministic :
    (∀ (ε : ℝ) (ls : LandmarkSet) (raw : Option RawModelOutput)
        (catalog : List HairstyleEntry) (limit : ℕ),
      runPipeline ε ls raw catalog limit = runPipeline ε ls raw catalog limit) ∧
    (∀ m1 m2 : FaceMeasurements, m1 = m2 → classifyGeometric m1 = classifyGeometric m2) :=
  ⟨fun _ _ _ _ _ => rfl, fun _ _ h => congrArg classifyGeometric h⟩

/-- Witness for C9 at a concrete measurement. -/
theorem pipeline_deterministic_witness :
    mZero = mZero ∧ classifyGeometric mZero = classifyGeometric mZero :=
  ⟨rfl, pipeline_deterministic.2 mZero mZero rfl⟩

/-- Every reachable state of the PhotoUpload component keeps its selected
file valid. -/
theorem upload_reachable_invariant (s : UploadState) (hs : ReachableUpload s) :
    uploadInvariant s := by
  induction hs with
  | init =>
    intro f hf
    exact absurd hf (by simp [initialUploadState])
  | @step s' hs' e ih =>
    cases e with
    | selectFile f =>
      show uploadInvariant (processFile s' f)
      intro f2 hf2
      unfold processFile at hf2
      by_cases ht : f.type ∉ validUploadTypes
      · rw [if_pos ht] at hf2
        exact ih f2 hf2
      · rw [if_neg ht] at hf2
        by_cases hsize : maxUploadSize < f.size
        · rw [if_pos hsize] at hf2
          exact ih f2 hf2
        · rw [if_neg hsize] at hf2
          have hf : f = f2 := Option.some.inj hf2
          rw [← hf]
          exact ⟨not_not.1 ht, le_of_not_lt hsize⟩
    | reset =>
      intro f2 hf2
      exact Option.noConfusion hf2
    | upload =>
      simp only [stepUpload]
      rcases hsel : s'.selectedFile with _ | f0
      · exact ih
      · intro f2 hf2
        have h02 : f0 = f2 := Option.some.inj hf2
        rw [← h02]
        exact ih f0 hsel
    | analysisFailed msg =>
      intro f2 hf2
      exact ih f2 hf2
    | analysisSucceeded =>
      intro f2 hf2
      exact ih f2 hf2

/-- C10: in the photo-upload component every reachable state has an absent or
valid selected file (one of the three accepted MIME types, at most 10485760
bytes); processFile rejects any other file by setting an error message without
selecting it, and an analyze request is never sent with an invalid file. -/
theorem upload_invariant_holds (s : UploadState) (hs : ReachableUpload s) :
    uploadInvariant s ∧
    (∀ f, ¬ validUploadFile f →
      (stepUpload s (UploadEvent.selectFile f)).1.selectedFile = s.selectedFile ∧
      (stepUpload s (UploadEvent.selectFile f)).1.error ≠ none) ∧
    (∀ f, (stepUpload s UploadEvent.upload).2 = some f → validUploadFile f) ∧
    maxUploadSize = 10485760 ∧
    validUploadTypes = ["image/jpeg", "image/png", "image/webp"] := by
  refine ⟨upload_reachable_invariant s hs, ?_, ?_, by norm_num [maxUploadSize], rfl⟩
  · intro f hbad
    show (processFile s f).selectedFile = s.selectedFile ∧ (processFile s f).error ≠ none
    unfold processFile
    by_cases ht : f.type ∉ validUploadTypes
    · rw [if_pos ht]
      exact ⟨rfl, Option.some_ne_none _⟩
    · have hsize : maxUploadSize < f.size :=
        not_le.1 fun hle => hbad ⟨not_not.1 ht, hle⟩
      rw [if_neg ht, if_pos hsize]
      exact ⟨rfl, Option.some_ne_none _⟩
  · intro f hf
    simp only [stepUpload] at hf
    rcases hsel : s.selectedFile with _ | f0
    · rw [hsel] at hf
      exact Option.noConfusion hf
    · rw [hsel] at hf
      have hf0 : f0 = f := Option.some.inj hf
      rw [← hf0]
      exact upload_reachable_invariant s hs f0 hsel

/-- Witness for C10: the initial state is reachable, and a rejected text file
leaves the selection unchanged. -/
theorem upload_invariant_holds_witness :
    ReachableUpload initialUploadState ∧
    ¬ validUploadFile ⟨"text/plain", 5⟩ ∧
    (stepUpload initialUploadState (UploadEvent.selectFile ⟨"text/plain", 5⟩)).1.selectedFile
      = initialUploadState.selectedFile := by
  have h1 : ReachableUpload initialUploadState := ReachableUpload.init
  have h2 : ¬ validUploadFile ⟨"text/plain", 5⟩ := by decide
  exact ⟨h1, h2, ((upload_invariant_holds initialUploadState h1).2.1 ⟨"text/plain", 5⟩ h2).1⟩

end HairstyleSuggester
